import Mathlib

/-!
Shallow embedding of the UltraRDP wire protocol and session logic
(moderniselife/ultrardp), together with theorems checking the
natural-language specification against the code.

Bytes are modelled as `Nat` values (< 256 where the code guarantees it),
byte slices as `List Nat`, Go `uint32` values as `Nat` with explicit
`% 2^32` where Go arithmetic wraps, Go `int64` as `Int` with an explicit
two's-complement encoding, Go maps as association lists with
overwrite-on-insert semantics. Go code that can panic (out-of-range slice
indexing) is modelled with `Option` / a `GoResult` type whose `panicked`
constructor marks the panic.
-/

namespace UltraRDP

/-! ## Little-endian byte encoding (encoding/binary, binary.LittleEndian) -/

/-- Little-endian byte encoding: `leBytes k n` is the `k`-byte
little-endian encoding of `n % 2^(8*k)`, as written by
`binary.LittleEndian.PutUint32` / `binary.Write`. -/
def leBytes : Nat → Nat → List Nat
  | 0, _ => []
  | k + 1, n => n % 256 :: leBytes k (n / 256)

/-- Little-endian byte decoding, as performed by
`binary.LittleEndian.Uint32` / `binary.Read`. -/
def fromLeBytes : List Nat → Nat
  | [] => 0
  | b :: bs => b + 256 * fromLeBytes bs

theorem leBytes_length (k n : Nat) : (leBytes k n).length = k := by
  induction k generalizing n with
  | zero => rfl
  | succ k ih => simp [leBytes, ih]

theorem fromLeBytes_leBytes (k n : Nat) :
    fromLeBytes (leBytes k n) = n % 2 ^ (8 * k) := by
  induction k generalizing n with
  | zero => simp [leBytes, fromLeBytes, Nat.mod_one]
  | succ k ih =>
    simp only [leBytes, fromLeBytes, ih]
    have hpow : (2:Nat) ^ (8 * (k + 1)) = 256 * 2 ^ (8 * k) := by
      rw [Nat.mul_add, Nat.pow_add]; ring
    rw [hpow, Nat.mod_mul]

/-! ## Go int64 timestamps (two's complement) -/

/-- The unsigned 64-bit value whose little-endian bytes `binary.Write`
emits for a Go `int64`. -/
def toUInt64 (t : Int) : Nat := (t % (2 ^ 64 : Nat)).toNat

/-- Reinterpret an unsigned 64-bit value as a signed Go `int64`, as
`binary.Read` into an `int64` does. -/
def toInt64 (n : Nat) : Int :=
  if n < 2 ^ 63 then (n : Int) else (n : Int) - 2 ^ 64

theorem toUInt64_lt (t : Int) : toUInt64 t < 2 ^ 64 := by
  unfold toUInt64
  have h : (0:Int) < (2 ^ 64 : Nat) := by positivity
  have := Int.emod_lt_of_pos t h
  omega

theorem toInt64_toUInt64 (t : Int) (h1 : -(2 ^ 63) ≤ t) (h2 : t < 2 ^ 63) :
    toInt64 (toUInt64 t) = t := by
  unfold toInt64 toUInt64
  have hc : ((2 ^ 64 : Nat) : Int) = (18446744073709551616 : Int) := by norm_num
  have h63 : (2 : Nat) ^ 63 = 9223372036854775808 := by norm_num
  have h64 : (2 : Int) ^ 64 = 18446744073709551616 := by norm_num
  have h63i : (2 : Int) ^ 63 = 9223372036854775808 := by norm_num
  rw [h63i] at h1 h2
  rw [hc, h63, h64]
  by_cases h : (t % 18446744073709551616).toNat < 9223372036854775808
  · rw [if_pos h]
    omega
  · rw [if_neg h]
    omega

/-! ## Packet framing (protocol/protocol.go) -/

/-- Go struct `protocol.Packet`. `Typ` models the `Type` byte field
(`Type` is not a legal Lean identifier). -/
structure Packet where
  Typ : Nat
  Timestamp : Int
  Length : Nat
  Payload : List Nat
deriving DecidableEq, Repr

/-- `protocol.EncodePacket`: type byte, 8-byte little-endian timestamp,
4-byte little-endian length, then the payload bytes (written only when
`Length > 0`, exactly as in the source). The `io.Writer` is modelled as
the produced byte list. -/
def EncodePacket (p : Packet) : List Nat :=
  p.Typ :: leBytes 8 (toUInt64 p.Timestamp) ++ leBytes 4 p.Length
    ++ (if p.Length > 0 then p.Payload else [])

/-- Read `n` bytes from the modelled reader, failing (i.e. an `io` error)
when the stream is too short, as `binary.Read` / `io.ReadFull` do. -/
def readBytes (n : Nat) (s : List Nat) : Option (List Nat × List Nat) :=
  if n ≤ s.length then some (s.take n, s.drop n) else none

/-- `protocol.DecodePacket`: reads the type byte, the 8-byte timestamp,
the 4-byte payload length, then exactly `Length` payload bytes
(`Length == 0` reads no payload). Returns the packet and the unread rest
of the stream; `none` models an `io` error. -/
def DecodePacket (s : List Nat) : Option (Packet × List Nat) :=
  match readBytes 1 s with
  | none => none
  | some (tb, s1) =>
    match readBytes 8 s1 with
    | none => none
    | some (tsb, s2) =>
      match readBytes 4 s2 with
      | none => none
      | some (lb, s3) =>
        let len := fromLeBytes lb
        match (if len > 0 then readBytes len s3 else some ([], s3)) with
        | none => none
        | some (pl, s4) =>
          some (⟨fromLeBytes tb, toInt64 (fromLeBytes tsb), len, pl⟩, s4)

theorem readBytes_exact (bs rest : List Nat) :
    readBytes bs.length (bs ++ rest) = some (bs, rest) := by
  unfold readBytes
  rw [if_pos (by simp only [List.length_append]; omega)]
  rw [List.take_left, List.drop_left]

/-- C1: For every packet `p` whose `Type` is in `{0x01..0x0A}`, whose
`Length` equals the length of its payload and whose timestamp is an
arbitrary `int64` value, `DecodePacket (EncodePacket p)` returns `p`
byte-for-byte and consumes the whole stream — including `Length = 0`,
which yields an empty payload rather than a failure. -/
theorem packet_encode_decode_roundtrip (p : Packet)
    (htype : 1 ≤ p.Typ ∧ p.Typ ≤ 10)
    (hlen : p.Length = p.Payload.length)
    (hlen32 : p.Length < 2 ^ 32)
    (hts1 : -(2 ^ 63) ≤ p.Timestamp) (hts2 : p.Timestamp < 2 ^ 63) :
    DecodePacket (EncodePacket p) = some (p, []) := by
  have h1 : readBytes 1 (EncodePacket p)
      = some ([p.Typ], leBytes 8 (toUInt64 p.Timestamp) ++ (leBytes 4 p.Length
      ++ (if p.Length > 0 then p.Payload else []))) := by
    unfold EncodePacket
    have := readBytes_exact [p.Typ] (leBytes 8 (toUInt64 p.Timestamp)
      ++ (leBytes 4 p.Length ++ (if p.Length > 0 then p.Payload else [])))
    simpa using this
  have h2 : readBytes 8 (leBytes 8 (toUInt64 p.Timestamp) ++ (leBytes 4 p.Length
      ++ (if p.Length > 0 then p.Payload else [])))
      = some (leBytes 8 (toUInt64 p.Timestamp), leBytes 4 p.Length
      ++ (if p.Length > 0 then p.Payload else [])) := by
    have := readBytes_exact (leBytes 8 (toUInt64 p.Timestamp))
      (leBytes 4 p.Length ++ (if p.Length > 0 then p.Payload else []))
    rwa [leBytes_length] at this
  have h3 : readBytes 4 (leBytes 4 p.Length ++ (if p.Length > 0 then p.Payload else []))
      = some (leBytes 4 p.Length, (if p.Length > 0 then p.Payload else [])) := by
    have := readBytes_exact (leBytes 4 p.Length) (if p.Length > 0 then p.Payload else [])
    rwa [leBytes_length] at this
  have hL : fromLeBytes (leBytes 4 p.Length) = p.Length := by
    rw [fromLeBytes_leBytes, Nat.mod_eq_of_lt]
    exact hlen32
  have hts : toInt64 (fromLeBytes (leBytes 8 (toUInt64 p.Timestamp))) = p.Timestamp := by
    rw [fromLeBytes_leBytes, Nat.mod_eq_of_lt (by have := toUInt64_lt p.Timestamp; omega)]
    exact toInt64_toUInt64 _ hts1 hts2
  have hT : fromLeBytes [p.Typ] = p.Typ := by simp [fromLeBytes]
  have hread : (if p.Length > 0 then
      readBytes p.Length (if p.Length > 0 then p.Payload else [])
      else some ([], (if p.Length > 0 then p.Payload else [])))
      = some (p.Payload, []) := by
    by_cases hz : p.Length > 0
    · rw [if_pos hz, if_pos hz, hlen]
      simpa using readBytes_exact p.Payload []
    · have h0 : p.Length = 0 := by omega
      have hpl : p.Payload = [] := by
        have := hlen; rw [h0] at this; exact (List.length_eq_zero.mp this.symm)
      rw [if_neg hz, if_neg hz, hpl]
  unfold DecodePacket
  rw [h1]
  simp only [h2, h3, hL, hT, hts, hread]

/-- Witness for the packet round-trip at a concrete packet with a
negative timestamp and a three-byte payload. -/
theorem packet_encode_decode_roundtrip_witness :
    DecodePacket (EncodePacket ⟨2, -5, 3, [255, 0, 16]⟩)
      = some (⟨2, -5, 3, [255, 0, 16]⟩, []) :=
  packet_encode_decode_roundtrip ⟨2, -5, 3, [255, 0, 16]⟩
    (by constructor <;> norm_num) (by norm_num) (by norm_num)
    (by norm_num) (by norm_num)

/-! ## Monitor configuration serialization (protocol/protocol.go) -/

/-- Go struct `protocol.MonitorInfo`. All numeric fields are `uint32` in
the source; they are modelled as `Nat` with well-formedness `< 2^32`. -/
structure MonitorInfo where
  ID : Nat
  Width : Nat
  Height : Nat
  PositionX : Nat
  PositionY : Nat
  Primary : Bool
deriving DecidableEq, Repr, Inhabited

/-- Go struct `protocol.MonitorConfig`. -/
structure MonitorConfig where
  MonitorCount : Nat
  Monitors : List MonitorInfo
deriving DecidableEq, Repr, Inhabited

/-- All `uint32` fields of a monitor are in range. -/
def wfMonitor (m : MonitorInfo) : Prop :=
  m.ID < 2 ^ 32 ∧ m.Width < 2 ^ 32 ∧ m.Height < 2 ^ 32 ∧
  m.PositionX < 2 ^ 32 ∧ m.PositionY < 2 ^ 32

instance (m : MonitorInfo) : Decidable (wfMonitor m) := by
  unfold wfMonitor; infer_instance

/-- A bounds-checked store of `bs` into `buf` at offset `off`, modelling
Go slice writes such as `binary.LittleEndian.PutUint32(buf[off:off+4], v)`
and `buf[off] = b`; `none` models the runtime panic on an out-of-range
slice. -/
def writeBytes (buf : List Nat) (off : Nat) (bs : List Nat) : Option (List Nat) :=
  if off + bs.length ≤ buf.length then
    some (buf.take off ++ bs ++ buf.drop (off + bs.length))
  else none

/-- The six stores the `EncodeMonitorConfig` loop body performs for one
monitor: five `PutUint32` writes and the primary-flag byte (the offset
then advances by 4 for alignment, leaving the 3 padding bytes as
initialized). -/
def writeMonitor (buf : List Nat) (off : Nat) (m : MonitorInfo) : Option (List Nat) :=
  match writeBytes buf off (leBytes 4 m.ID) with
  | none => none
  | some b1 =>
    match writeBytes b1 (off + 4) (leBytes 4 m.Width) with
    | none => none
    | some b2 =>
      match writeBytes b2 (off + 8) (leBytes 4 m.Height) with
      | none => none
      | some b3 =>
        match writeBytes b3 (off + 12) (leBytes 4 m.PositionX) with
        | none => none
        | some b4 =>
          match writeBytes b4 (off + 16) (leBytes 4 m.PositionY) with
          | none => none
          | some b5 =>
            writeBytes b5 (off + 20) [if m.Primary then 1 else 0]

/-- The `for _, monitor := range config.Monitors` loop of
`EncodeMonitorConfig`, advancing the offset by 24 per monitor. -/
def writeMonitors : List MonitorInfo → Nat → List Nat → Option (List Nat)
  | [], _, buf => some buf
  | m :: rest, off, buf =>
    match writeMonitor buf off m with
    | none => none
    | some buf1 => writeMonitors rest (off + 24) buf1

/-- `protocol.EncodeMonitorConfig`: allocates a buffer of
`4 + MonitorCount*24` bytes (computed in wrapping `uint32` arithmetic, as
in the source), writes the count, then the monitor records starting at
offset 4. `none` models the panic when a write falls outside the
allocated buffer. -/
def EncodeMonitorConfig (c : MonitorConfig) : Option (List Nat) :=
  match writeBytes (List.replicate ((4 + c.MonitorCount * 24) % 2 ^ 32) 0) 0
      (leBytes 4 c.MonitorCount) with
  | none => none
  | some buf1 => writeMonitors c.Monitors 4 buf1

/-- Result of running a Go function that may return an error or panic. -/
inductive GoResult (α : Type) where
  | panicked
  | errored
  | ok (val : α)
deriving DecidableEq, Repr

/-- Bounds-checked model of `binary.LittleEndian.Uint32(data[off:off+4])`;
`none` models the slice-bounds panic. -/
def readU32 (data : List Nat) (off : Nat) : Option Nat :=
  if off + 4 ≤ data.length then some (fromLeBytes ((data.drop off).take 4)) else none

/-- Bounds-checked model of `data[off]`; `none` models the index panic. -/
def readByteAt (data : List Nat) (off : Nat) : Option Nat :=
  if off < data.length then some (data.getD off 0) else none

/-- The `for i := uint32(0); i < count; i++` decoding loop of
`DecodeMonitorConfig`: the first argument is the number of monitors still
to read. -/
def readMonitors : Nat → Nat → List Nat → Option (List MonitorInfo)
  | 0, _, _ => some []
  | n + 1, off, data =>
    match readU32 data off with
    | none => none
    | some id =>
      match readU32 data (off + 4) with
      | none => none
      | some w =>
        match readU32 data (off + 8) with
        | none => none
        | some h =>
          match readU32 data (off + 12) with
          | none => none
          | some x =>
            match readU32 data (off + 16) with
            | none => none
            | some y =>
              match readByteAt data (off + 20) with
              | none => none
              | some pb =>
                match readMonitors n (off + 24) data with
                | none => none
                | some rest =>
                  some (⟨id, w, h, x, y, pb == 1⟩ :: rest)

/-- `protocol.DecodeMonitorConfig`: reads the count, checks
`uint32(len(data)) < 4 + count*24` in wrapping `uint32` arithmetic
(exactly as the source computes `expectedSize`), then reads `count`
24-byte records starting at offset 4. `errored` models the
`io.ErrUnexpectedEOF` returns, `panicked` an out-of-range slice access in
the loop. -/
def DecodeMonitorConfig (data : List Nat) : GoResult MonitorConfig :=
  if data.length < 4 then .errored
  else if data.length % 2 ^ 32 < (4 + fromLeBytes (data.take 4) * 24) % 2 ^ 32 then
    .errored
  else
    match readMonitors (fromLeBytes (data.take 4)) 4 data with
    | none => .panicked
    | some mons => .ok ⟨fromLeBytes (data.take 4), mons⟩

/-- The byte image `EncodeMonitorConfig` produces for one monitor: the
five little-endian `uint32` fields, the primary byte, and the three
zero padding bytes the loop skips over. -/
def encMonitorBytes (m : MonitorInfo) : List Nat :=
  leBytes 4 m.ID ++ leBytes 4 m.Width ++ leBytes 4 m.Height ++
  leBytes 4 m.PositionX ++ leBytes 4 m.PositionY ++
  [if m.Primary then 1 else 0, 0, 0, 0]

/-- The byte image `EncodeMonitorConfig` produces for a whole
configuration. -/
def encConfigBytes (c : MonitorConfig) : List Nat :=
  leBytes 4 c.MonitorCount ++ (c.Monitors.map encMonitorBytes).flatten

theorem encMonitorBytes_length (m : MonitorInfo) : (encMonitorBytes m).length = 24 := by
  simp [encMonitorBytes, leBytes_length]

theorem writeBytes_at (pre tail bs : List Nat) (off : Nat)
    (hoff : off = pre.length) (h : bs.length ≤ tail.length) :
    writeBytes (pre ++ tail) off bs = some (pre ++ (bs ++ tail.drop bs.length)) := by
  subst hoff
  unfold writeBytes
  rw [if_pos (by simp only [List.length_append]; omega)]
  have ht : (pre ++ tail).take pre.length = pre := List.take_left _ _
  have hd : (pre ++ tail).drop (pre.length + bs.length) = tail.drop bs.length := by
    rw [← List.drop_drop, List.drop_left]
  rw [ht, hd, List.append_assoc]

theorem writeBytes_replicate (P bs : List Nat) (n off : Nat)
    (hoff : off = P.length) (h : bs.length ≤ n) :
    writeBytes (P ++ List.replicate n 0) off bs
      = some ((P ++ bs) ++ List.replicate (n - bs.length) 0) := by
  have := writeBytes_at P (List.replicate n 0) bs off hoff
    (by rw [List.length_replicate]; exact h)
  rw [this, List.drop_replicate, List.append_assoc]

theorem writeMonitor_fill (pre : List Nat) (k off : Nat) (m : MonitorInfo)
    (hoff : off = pre.length) :
    writeMonitor (pre ++ List.replicate (24 + k) 0) off m
      = some ((pre ++ encMonitorBytes m) ++ List.replicate k 0) := by
  subst hoff
  have l4 : ∀ v : Nat, (leBytes 4 v).length = 4 := fun v => leBytes_length 4 v
  have e1 := writeBytes_replicate pre (leBytes 4 m.ID) (24 + k) pre.length rfl
    (by rw [l4]; omega)
  rw [l4, show 24 + k - 4 = 20 + k by omega] at e1
  have e2 := writeBytes_replicate (pre ++ leBytes 4 m.ID) (leBytes 4 m.Width)
    (20 + k) (pre.length + 4) (by simp [l4]) (by rw [l4]; omega)
  rw [l4, show 20 + k - 4 = 16 + k by omega] at e2
  have e3 := writeBytes_replicate ((pre ++ leBytes 4 m.ID) ++ leBytes 4 m.Width)
    (leBytes 4 m.Height) (16 + k) (pre.length + 8) (by simp [l4]) (by rw [l4]; omega)
  rw [l4, show 16 + k - 4 = 12 + k by omega] at e3
  have e4 := writeBytes_replicate
    (((pre ++ leBytes 4 m.ID) ++ leBytes 4 m.Width) ++ leBytes 4 m.Height)
    (leBytes 4 m.PositionX) (12 + k) (pre.length + 12) (by simp [l4]) (by rw [l4]; omega)
  rw [l4, show 12 + k - 4 = 8 + k by omega] at e4
  have e5 := writeBytes_replicate
    ((((pre ++ leBytes 4 m.ID) ++ leBytes 4 m.Width) ++ leBytes 4 m.Height)
      ++ leBytes 4 m.PositionX)
    (leBytes 4 m.PositionY) (8 + k) (pre.length + 16) (by simp [l4]) (by rw [l4]; omega)
  rw [l4, show 8 + k - 4 = 4 + k by omega] at e5
  have e6 := writeBytes_replicate
    (((((pre ++ leBytes 4 m.ID) ++ leBytes 4 m.Width) ++ leBytes 4 m.Height)
      ++ leBytes 4 m.PositionX) ++ leBytes 4 m.PositionY)
    [if m.Primary then 1 else 0] (4 + k) (pre.length + 20) (by simp [l4])
    (by simp only [List.length_cons, List.length_nil]; omega)
  rw [show (([if m.Primary then 1 else 0] : List Nat)).length = 1 by simp,
    show 4 + k - 1 = 3 + k by omega] at e6
  unfold writeMonitor
  simp only [e1, e2, e3, e4, e5, e6]
  rw [List.replicate_add, show List.replicate 3 (0:Nat) = [0, 0, 0] from rfl]
  simp [encMonitorBytes, List.append_assoc]

theorem writeMonitors_fill (mons : List MonitorInfo) (pre : List Nat) (off : Nat)
    (hoff : off = pre.length) :
    writeMonitors mons off (pre ++ List.replicate (24 * mons.length) 0)
      = some (pre ++ (mons.map encMonitorBytes).flatten) := by
  induction mons generalizing pre off with
  | nil => simp [writeMonitors]
  | cons m rest ih =>
    rw [show 24 * (m :: rest).length = 24 + 24 * rest.length by simp [List.length_cons]; ring]
    unfold writeMonitors
    rw [writeMonitor_fill pre (24 * rest.length) off m hoff]
    show writeMonitors rest (off + 24)
      ((pre ++ encMonitorBytes m) ++ List.replicate (24 * rest.length) 0) = _
    rw [ih (pre ++ encMonitorBytes m) (off + 24)
      (by rw [List.length_append, encMonitorBytes_length, hoff])]
    simp [List.append_assoc]

theorem encodeMonitorConfig_eq (c : MonitorConfig)
    (hcount : c.MonitorCount = c.Monitors.length)
    (hnowrap : 4 + c.MonitorCount * 24 < 2 ^ 32) :
    EncodeMonitorConfig c = some (encConfigBytes c) := by
  unfold EncodeMonitorConfig
  have hsize : (4 + c.MonitorCount * 24) % 2 ^ 32 = 4 + 24 * c.Monitors.length := by
    rw [Nat.mod_eq_of_lt hnowrap, hcount]; ring
  rw [hsize]
  have hsplit : List.replicate (4 + 24 * c.Monitors.length) (0:Nat)
      = List.replicate 4 0 ++ List.replicate (24 * c.Monitors.length) 0 :=
    List.replicate_add 4 (24 * c.Monitors.length) 0
  rw [hsplit]
  have e0 : writeBytes (List.replicate 4 0 ++ List.replicate (24 * c.Monitors.length) 0)
      0 (leBytes 4 c.MonitorCount)
      = some ((leBytes 4 c.MonitorCount) ++ List.replicate (24 * c.Monitors.length) 0) := by
    have h4 : List.replicate (4:Nat) (0:Nat) ++ List.replicate (24 * c.Monitors.length) 0
        = [] ++ List.replicate (4 + 24 * c.Monitors.length) 0 := by
      rw [List.nil_append, ← List.replicate_add]
    rw [h4]
    have := writeBytes_replicate [] (leBytes 4 c.MonitorCount)
      (4 + 24 * c.Monitors.length) 0 rfl (by rw [leBytes_length]; omega)
    rw [leBytes_length, show 4 + 24 * c.Monitors.length - 4 = 24 * c.Monitors.length
      by omega] at this
    simpa using this
  rw [e0]
  show writeMonitors c.Monitors 4
    (leBytes 4 c.MonitorCount ++ List.replicate (24 * c.Monitors.length) 0) = _
  rw [writeMonitors_fill c.Monitors (leBytes 4 c.MonitorCount) 4 (leBytes_length 4 _).symm]
  rfl

theorem encConfigBytes_length (c : MonitorConfig) :
    (encConfigBytes c).length = 4 + 24 * c.Monitors.length := by
  unfold encConfigBytes
  rw [List.length_append, leBytes_length]
  congr 1
  induction c.Monitors with
  | nil => simp
  | cons m rest ih =>
    simp only [List.map_cons, List.flatten_cons, List.length_append,
      encMonitorBytes_length, List.length_cons, ih]
    ring

theorem readU32_at (pre suf : List Nat) (off : Nat)
    (hoff : off = pre.length) (h : 4 ≤ suf.length) :
    readU32 (pre ++ suf) off = some (fromLeBytes (suf.take 4)) := by
  subst hoff
  unfold readU32
  rw [if_pos (by simp only [List.length_append]; omega), List.drop_left]

theorem readByteAt_at (pre suf : List Nat) (off : Nat)
    (hoff : off = pre.length) (h : 1 ≤ suf.length) :
    readByteAt (pre ++ suf) off = some (suf.getD 0 0) := by
  subst hoff
  unfold readByteAt
  rw [if_pos (by simp only [List.length_append]; omega)]
  rw [List.getD_eq_getElem?_getD, List.getD_eq_getElem?_getD,
    List.getElem?_append_right (le_refl _), Nat.sub_self]

theorem fromLeBytes_take_leBytes (v : Nat) (hv : v < 2 ^ 32) (T : List Nat) :
    fromLeBytes ((leBytes 4 v ++ T).take 4) = v := by
  rw [List.take_left' (leBytes_length 4 v), fromLeBytes_leBytes,
    Nat.mod_eq_of_lt hv]

theorem readMonitors_fill (mons : List MonitorInfo) (pre rest : List Nat) (off : Nat)
    (hoff : off = pre.length)
    (hwf : ∀ m ∈ mons, wfMonitor m) :
    readMonitors mons.length off (pre ++ ((mons.map encMonitorBytes).flatten ++ rest))
      = some mons := by
  induction mons generalizing pre off with
  | nil => simp [readMonitors]
  | cons m rest2 ih =>
    subst hoff
    obtain ⟨hid, hw, hh, hx, hy⟩ := hwf m (by simp)
    have hD : pre ++ (((m :: rest2).map encMonitorBytes).flatten ++ rest)
        = pre ++ (leBytes 4 m.ID ++ (leBytes 4 m.Width ++ (leBytes 4 m.Height ++
          (leBytes 4 m.PositionX ++ (leBytes 4 m.PositionY ++
          ((if m.Primary then 1 else 0) :: 0 :: 0 :: 0 ::
            ((rest2.map encMonitorBytes).flatten ++ rest))))))) := by
      simp [encMonitorBytes, List.append_assoc]
    rw [hD]
    have hlen4 : ∀ v : Nat, (leBytes 4 v).length = 4 := fun v => leBytes_length 4 v
    have e1 : readU32 (pre ++ (leBytes 4 m.ID ++ (leBytes 4 m.Width ++ (leBytes 4 m.Height ++
        (leBytes 4 m.PositionX ++ (leBytes 4 m.PositionY ++
        ((if m.Primary then 1 else 0) :: 0 :: 0 :: 0 ::
          ((rest2.map encMonitorBytes).flatten ++ rest)))))))) pre.length
        = some m.ID := by
      rw [readU32_at pre _ pre.length rfl (by simp [hlen4])]
      rw [fromLeBytes_take_leBytes m.ID hid]
    have e2 : readU32 (pre ++ (leBytes 4 m.ID ++ (leBytes 4 m.Width ++ (leBytes 4 m.Height ++
        (leBytes 4 m.PositionX ++ (leBytes 4 m.PositionY ++
        ((if m.Primary then 1 else 0) :: 0 :: 0 :: 0 ::
          ((rest2.map encMonitorBytes).flatten ++ rest)))))))) (pre.length + 4)
        = some m.Width := by
      rw [show pre ++ (leBytes 4 m.ID ++ (leBytes 4 m.Width ++ (leBytes 4 m.Height ++
        (leBytes 4 m.PositionX ++ (leBytes 4 m.PositionY ++
        ((if m.Primary then 1 else 0) :: 0 :: 0 :: 0 ::
          ((rest2.map encMonitorBytes).flatten ++ rest)))))))
        = (pre ++ leBytes 4 m.ID) ++ (leBytes 4 m.Width ++ (leBytes 4 m.Height ++
        (leBytes 4 m.PositionX ++ (leBytes 4 m.PositionY ++
        ((if m.Primary then 1 else 0) :: 0 :: 0 :: 0 ::
          ((rest2.map encMonitorBytes).flatten ++ rest))))))
        by simp [List.append_assoc]]
      rw [readU32_at _ _ _ (by simp [hlen4]) (by simp [hlen4])]
      rw [fromLeBytes_take_leBytes m.Width hw]
    have e3 : readU32 (pre ++ (leBytes 4 m.ID ++ (leBytes 4 m.Width ++ (leBytes 4 m.Height ++
        (leBytes 4 m.PositionX ++ (leBytes 4 m.PositionY ++
        ((if m.Primary then 1 else 0) :: 0 :: 0 :: 0 ::
          ((rest2.map encMonitorBytes).flatten ++ rest)))))))) (pre.length + 8)
        = some m.Height := by
      rw [show pre ++ (leBytes 4 m.ID ++ (leBytes 4 m.Width ++ (leBytes 4 m.Height ++
        (leBytes 4 m.PositionX ++ (leBytes 4 m.PositionY ++
        ((if m.Primary then 1 else 0) :: 0 :: 0 :: 0 ::
          ((rest2.map encMonitorBytes).flatten ++ rest)))))))
        = ((pre ++ leBytes 4 m.ID) ++ leBytes 4 m.Width) ++ (leBytes 4 m.Height ++
        (leBytes 4 m.PositionX ++ (leBytes 4 m.PositionY ++
        ((if m.Primary then 1 else 0) :: 0 :: 0 :: 0 ::
          ((rest2.map encMonitorBytes).flatten ++ rest)))))
        by simp [List.append_assoc]]
      rw [readU32_at _ _ _ (by simp [hlen4]) (by simp [hlen4])]
      rw [fromLeBytes_take_leBytes m.Height hh]
    have e4 : readU32 (pre ++ (leBytes 4 m.ID ++ (leBytes 4 m.Width ++ (leBytes 4 m.Height ++
        (leBytes 4 m.PositionX ++ (leBytes 4 m.PositionY ++
        ((if m.Primary then 1 else 0) :: 0 :: 0 :: 0 ::
          ((rest2.map encMonitorBytes).flatten ++ rest)))))))) (pre.length + 12)
        = some m.PositionX := by
      rw [show pre ++ (leBytes 4 m.ID ++ (leBytes 4 m.Width ++ (leBytes 4 m.Height ++
        (leBytes 4 m.PositionX ++ (leBytes 4 m.PositionY ++
        ((if m.Primary then 1 else 0) :: 0 :: 0 :: 0 ::
          ((rest2.map encMonitorBytes).flatten ++ rest)))))))
        = (((pre ++ leBytes 4 m.ID) ++ leBytes 4 m.Width) ++ leBytes 4 m.Height)
          ++ (leBytes 4 m.PositionX ++ (leBytes 4 m.PositionY ++
        ((if m.Primary then 1 else 0) :: 0 :: 0 :: 0 ::
          ((rest2.map encMonitorBytes).flatten ++ rest))))
        by simp [List.append_assoc]]
      rw [readU32_at _ _ _ (by simp [hlen4]) (by simp [hlen4])]
      rw [fromLeBytes_take_leBytes m.PositionX hx]
    have e5 : readU32 (pre ++ (leBytes 4 m.ID ++ (leBytes 4 m.Width ++ (leBytes 4 m.Height ++
        (leBytes 4 m.PositionX ++ (leBytes 4 m.PositionY ++
        ((if m.Primary then 1 else 0) :: 0 :: 0 :: 0 ::
          ((rest2.map encMonitorBytes).flatten ++ rest)))))))) (pre.length + 16)
        = some m.PositionY := by
      rw [show pre ++ (leBytes 4 m.ID ++ (leBytes 4 m.Width ++ (leBytes 4 m.Height ++
        (leBytes 4 m.PositionX ++ (leBytes 4 m.PositionY ++
        ((if m.Primary then 1 else 0) :: 0 :: 0 :: 0 ::
          ((rest2.map encMonitorBytes).flatten ++ rest)))))))
        = ((((pre ++ leBytes 4 m.ID) ++ leBytes 4 m.Width) ++ leBytes 4 m.Height)
          ++ leBytes 4 m.PositionX) ++ (leBytes 4 m.PositionY ++
        ((if m.Primary then 1 else 0) :: 0 :: 0 :: 0 ::
          ((rest2.map encMonitorBytes).flatten ++ rest)))
        by simp [List.append_assoc]]
      rw [readU32_at _ _ _ (by simp [hlen4]) (by simp [hlen4])]
      rw [fromLeBytes_take_leBytes m.PositionY hy]
    have e6 : readByteAt (pre ++ (leBytes 4 m.ID ++ (leBytes 4 m.Width ++ (leBytes 4 m.Height ++
        (leBytes 4 m.PositionX ++ (leBytes 4 m.PositionY ++
        ((if m.Primary then 1 else 0) :: 0 :: 0 :: 0 ::
          ((rest2.map encMonitorBytes).flatten ++ rest)))))))) (pre.length + 20)
        = some (if m.Primary then 1 else 0) := by
      rw [show pre ++ (leBytes 4 m.ID ++ (leBytes 4 m.Width ++ (leBytes 4 m.Height ++
        (leBytes 4 m.PositionX ++ (leBytes 4 m.PositionY ++
        ((if m.Primary then 1 else 0) :: 0 :: 0 :: 0 ::
          ((rest2.map encMonitorBytes).flatten ++ rest)))))))
        = (((((pre ++ leBytes 4 m.ID) ++ leBytes 4 m.Width) ++ leBytes 4 m.Height)
          ++ leBytes 4 m.PositionX) ++ leBytes 4 m.PositionY) ++
        ((if m.Primary then 1 else 0) :: 0 :: 0 :: 0 ::
          ((rest2.map encMonitorBytes).flatten ++ rest))
        by simp [List.append_assoc]]
      rw [readByteAt_at _ _ _ (by simp [hlen4]) (by simp)]
      rfl
    have e7 : readMonitors rest2.length (pre.length + 24)
        (pre ++ (leBytes 4 m.ID ++ (leBytes 4 m.Width ++ (leBytes 4 m.Height ++
        (leBytes 4 m.PositionX ++ (leBytes 4 m.PositionY ++
        ((if m.Primary then 1 else 0) :: 0 :: 0 :: 0 ::
          ((rest2.map encMonitorBytes).flatten ++ rest))))))))
        = some rest2 := by
      rw [show pre ++ (leBytes 4 m.ID ++ (leBytes 4 m.Width ++ (leBytes 4 m.Height ++
        (leBytes 4 m.PositionX ++ (leBytes 4 m.PositionY ++
        ((if m.Primary then 1 else 0) :: 0 :: 0 :: 0 ::
          ((rest2.map encMonitorBytes).flatten ++ rest)))))))
        = (pre ++ encMonitorBytes m) ++ ((rest2.map encMonitorBytes).flatten ++ rest)
        by simp [encMonitorBytes, List.append_assoc]]
      exact ih (pre ++ encMonitorBytes m) _
        (by rw [List.length_append, encMonitorBytes_length])
        (fun x hx2 => hwf x (by simp [hx2]))
    simp only [List.length_cons, readMonitors, e1, e2, e3, e4, e5, e6, e7]
    have hpb : ((if m.Primary then 1 else 0) == 1) = m.Primary := by
      cases m.Primary <;> rfl
    rw [hpb]

/-- Decoding the encoded bytes of a well-formed configuration succeeds
and returns the configuration unchanged. -/
theorem decode_encConfigBytes (c : MonitorConfig)
    (hcount : c.MonitorCount = c.Monitors.length)
    (hnowrap : 4 + c.MonitorCount * 24 < 2 ^ 32)
    (hwf : ∀ m ∈ c.Monitors, wfMonitor m) :
    DecodeMonitorConfig (encConfigBytes c) = GoResult.ok c := by
  have hlen : (encConfigBytes c).length = 4 + 24 * c.Monitors.length :=
    encConfigBytes_length c
  have hcnt32 : c.MonitorCount < 2 ^ 32 := by omega
  have htake : fromLeBytes ((encConfigBytes c).take 4) = c.MonitorCount := by
    unfold encConfigBytes
    exact fromLeBytes_take_leBytes c.MonitorCount hcnt32 _
  unfold DecodeMonitorConfig
  rw [if_neg (by omega)]
  rw [htake]
  rw [if_neg (by
    rw [Nat.mod_eq_of_lt hnowrap, Nat.mod_eq_of_lt (by omega)]
    omega)]
  have hread : readMonitors c.MonitorCount 4 (encConfigBytes c) = some c.Monitors := by
    rw [hcount]
    have := readMonitors_fill c.Monitors (leBytes 4 c.MonitorCount) [] 4
      (leBytes_length 4 _).symm hwf
    rw [List.append_nil] at this
    exact this
  rw [hread]

/-- C2 (amended): for every configuration whose count matches its monitor
list, whose `uint32` fields are in range, and whose size computation
`4 + count*24` does not overflow `uint32`, `EncodeMonitorConfig` produces
exactly `4 + 24 * MonitorCount` bytes and `DecodeMonitorConfig` of those
bytes returns the configuration unchanged. -/
theorem monitor_config_roundtrip (c : MonitorConfig)
    (hcount : c.MonitorCount = c.Monitors.length)
    (hnowrap : 4 + c.MonitorCount * 24 < 2 ^ 32)
    (hwf : ∀ m ∈ c.Monitors, wfMonitor m) :
    EncodeMonitorConfig c = some (encConfigBytes c)
    ∧ (encConfigBytes c).length = 4 + 24 * c.MonitorCount
    ∧ DecodeMonitorConfig (encConfigBytes c) = GoResult.ok c := by
  refine ⟨encodeMonitorConfig_eq c hcount hnowrap, ?_,
    decode_encConfigBytes c hcount hnowrap hwf⟩
  rw [encConfigBytes_length, hcount]

/-- Witness for the monitor-config round-trip at a concrete two-monitor
configuration. -/
theorem monitor_config_roundtrip_witness :
    EncodeMonitorConfig ⟨2, [⟨1, 1920, 1080, 0, 0, true⟩, ⟨2, 2560, 1440, 1920, 0, false⟩]⟩
      = some (encConfigBytes
          ⟨2, [⟨1, 1920, 1080, 0, 0, true⟩, ⟨2, 2560, 1440, 1920, 0, false⟩]⟩)
    ∧ (encConfigBytes
        ⟨2, [⟨1, 1920, 1080, 0, 0, true⟩, ⟨2, 2560, 1440, 1920, 0, false⟩]⟩).length
        = 4 + 24 * 2
    ∧ DecodeMonitorConfig (encConfigBytes
        ⟨2, [⟨1, 1920, 1080, 0, 0, true⟩, ⟨2, 2560, 1440, 1920, 0, false⟩]⟩)
        = GoResult.ok
          ⟨2, [⟨1, 1920, 1080, 0, 0, true⟩, ⟨2, 2560, 1440, 1920, 0, false⟩]⟩ :=
  monitor_config_roundtrip
    ⟨2, [⟨1, 1920, 1080, 0, 0, true⟩, ⟨2, 2560, 1440, 1920, 0, false⟩]⟩
    (by decide) (by decide) (by decide)

/-- A configuration whose `4 + count*24` size computation overflows
`uint32`: the count is `2^32 / 8`, so `count * 24` wraps to `0` and the
allocated buffer has only 4 bytes. -/
def overflowConfig : MonitorConfig :=
  ⟨536870912, List.replicate 536870912 ⟨1, 0, 0, 0, 0, false⟩⟩

/-- C2 (counterexample): the claim quantifies over every configuration
with `MonitorCount = Monitors.length`, but for a count of `536870912` the
`uint32` size computation in `EncodeMonitorConfig` wraps to 4, the first
monitor write falls outside the 4-byte buffer and the function panics
instead of producing `4 + 24 * MonitorCount` bytes. -/
theorem monitor_config_roundtrip_counterexample :
    overflowConfig.MonitorCount = overflowConfig.Monitors.length
    ∧ EncodeMonitorConfig overflowConfig = none := by
  constructor
  · show 536870912 = (List.replicate 536870912 (⟨1, 0, 0, 0, 0, false⟩ : MonitorInfo)).length
    rw [List.length_replicate]
  · rfl

/-- The guard of `DecodeMonitorConfig`: `true` exactly when both length
checks pass and the function goes on to read the monitor records. -/
def decodeProceeds (data : List Nat) : Bool :=
  decide (4 ≤ data.length) &&
  decide ((4 + fromLeBytes (data.take 4) * 24) % 2 ^ 32 ≤ data.length % 2 ^ 32)

/-- C10: the 4-byte input `[0x00, 0x00, 0x00, 0x20]` declares a count of
`536870912`; the wrapping `uint32` computation of `expectedSize` yields 4,
so both length checks of `DecodeMonitorConfig` pass although
`4 + 24 * count` vastly exceeds the input length, and the decoding loop's
first slice access is out of range (a Go panic). -/
theorem decode_monitor_config_oob :
    decodeProceeds [0, 0, 0, 32] = true
    ∧ ¬ (4 + fromLeBytes (([0, 0, 0, 32] : List Nat).take 4) * 24
          ≤ ([0, 0, 0, 32] : List Nat).length)
    ∧ DecodeMonitorConfig [0, 0, 0, 32] = GoResult.panicked := by
  refine ⟨by decide, by decide, ?_⟩
  rfl

/-! ## Go maps as association lists, and the server's monitor mapping
(server/server.go) -/

/-- Lookup in a Go `map[uint32]uint32`-style map modelled as an
association list. -/
def mapLookup {β : Type} : List (Nat × β) → Nat → Option β
  | [], _ => none
  | (k2, v) :: rest, k => if k2 = k then some v else mapLookup rest k

/-- Go map assignment `m[k] = v`: overwrites the binding when the key is
present, otherwise adds a new binding. -/
def mapInsert {β : Type} (m : List (Nat × β)) (k : Nat) (v : β) : List (Nat × β) :=
  if (mapLookup m k).isSome then
    m.map (fun p => if p.1 = k then (k, v) else p)
  else m ++ [(k, v)]

theorem mapLookup_append {β : Type} (m1 m2 : List (Nat × β)) (k : Nat) :
    mapLookup (m1 ++ m2) k
      = match mapLookup m1 k with
        | some v => some v
        | none => mapLookup m2 k := by
  induction m1 with
  | nil => simp [mapLookup]
  | cons p rest ih =>
    obtain ⟨k2, v⟩ := p
    by_cases hk : k2 = k
    · simp [mapLookup, hk]
    · simp [mapLookup, hk, ih]

theorem mapInsert_of_absent {β : Type} (m : List (Nat × β)) (k : Nat) (v : β)
    (h : mapLookup m k = none) : mapInsert m k v = m ++ [(k, v)] := by
  unfold mapInsert
  rw [h]
  rfl

/-- The id of the `i`-th monitor of a configuration (Go
`cfg.Monitors[i].ID`; indices used by the code are in bounds under the
count hypotheses of the theorems below). -/
def idAt (cfg : MonitorConfig) (i : Nat) : Nat := (cfg.Monitors.getD i default).ID

/-- The loop of `Server.mapMonitors` (also inlined in `handleClient`):
`for i := uint32(0); i < s.monitors.MonitorCount && i < clientMonitors.MonitorCount; i++`
inserting `client.monitorMap[serverMonitor.ID] = clientMonitor.ID`. The
first argument is the number of remaining iterations. -/
def mapMonitorsGo (s c : MonitorConfig) : Nat → Nat → List (Nat × Nat) → List (Nat × Nat)
  | 0, _, acc => acc
  | n + 1, i, acc =>
    mapMonitorsGo s c n (i + 1) (mapInsert acc (idAt s i) (idAt c i))

/-- `Server.mapMonitors`: clears the map, then pairs server and client
monitors positionally up to `min` of the two counts. -/
def mapMonitors (s c : MonitorConfig) : List (Nat × Nat) :=
  mapMonitorsGo s c (min s.MonitorCount c.MonitorCount) 0 []

/-- The association list the mapping loop produces when no key collision
occurs: positional pairs of server and client monitor ids. -/
def specPairs (s c : MonitorConfig) : Nat → Nat → List (Nat × Nat)
  | 0, _ => []
  | n + 1, i => (idAt s i, idAt c i) :: specPairs s c n (i + 1)

theorem specPairs_length (s c : MonitorConfig) (n i : Nat) :
    (specPairs s c n i).length = n := by
  induction n generalizing i with
  | zero => rfl
  | succ n ih => simp [specPairs, ih]

theorem mapMonitorsGo_eq_append (s c : MonitorConfig) (n : Nat) :
    ∀ (i : Nat) (acc : List (Nat × Nat)),
    (∀ j, j < n → mapLookup acc (idAt s (i + j)) = none) →
    (∀ j1 j2, j1 < j2 → j2 < n → idAt s (i + j1) ≠ idAt s (i + j2)) →
    mapMonitorsGo s c n i acc = acc ++ specPairs s c n i := by
  induction n with
  | zero => intro i acc _ _; simp [mapMonitorsGo, specPairs]
  | succ n ih =>
    intro i acc hfresh hdist
    unfold mapMonitorsGo
    rw [mapInsert_of_absent acc (idAt s i) (idAt c i)
      (by have := hfresh 0 (by omega); simpa using this)]
    rw [ih (i + 1) (acc ++ [(idAt s i, idAt c i)]) ?fresh ?dist]
    · simp [specPairs, List.append_assoc]
    case fresh =>
      intro j hj
      rw [mapLookup_append]
      have h1 : mapLookup acc (idAt s (i + 1 + j)) = none := by
        have := hfresh (j + 1) (by omega)
        rw [show i + (j + 1) = i + 1 + j by omega] at this
        exact this
      rw [h1]
      have h2 : idAt s i ≠ idAt s (i + 1 + j) := by
        have := hdist 0 (j + 1) (by omega) (by omega)
        rw [show i + 0 = i by omega, show i + (j + 1) = i + 1 + j by omega] at this
        exact this
      simp [mapLookup, h2]
    case dist =>
      intro j1 j2 h12 h2n
      have := hdist (j1 + 1) (j2 + 1) (by omega) (by omega)
      rw [show i + (j1 + 1) = i + 1 + j1 by omega,
        show i + (j2 + 1) = i + 1 + j2 by omega] at this
      exact this

theorem mapLookup_specPairs_hit (s c : MonitorConfig) (n : Nat) :
    ∀ (i j : Nat), j < n →
    (∀ j1 j2, j1 < j2 → j2 < n → idAt s (i + j1) ≠ idAt s (i + j2)) →
    mapLookup (specPairs s c n i) (idAt s (i + j)) = some (idAt c (i + j)) := by
  induction n with
  | zero => omega
  | succ n ih =>
    intro i j hj hdist
    unfold specPairs mapLookup
    rcases Nat.eq_zero_or_pos j with hj0 | hjpos
    · subst hj0
      rw [if_pos (by rw [Nat.add_zero])]
      rw [Nat.add_zero]
    · have hne : idAt s i ≠ idAt s (i + j) := by
        have := hdist 0 j (by omega) (by omega)
        rwa [Nat.add_zero] at this
      rw [if_neg hne]
      have := ih (i + 1) (j - 1) (by omega)
        (fun j1 j2 h12 h2n => by
          have := hdist (j1 + 1) (j2 + 1) (by omega) (by omega)
          rw [show i + (j1 + 1) = i + 1 + j1 by omega,
            show i + (j2 + 1) = i + 1 + j2 by omega] at this
          exact this)
      rw [show i + 1 + (j - 1) = i + j by omega] at this
      exact this

theorem mapLookup_specPairs_miss (s c : MonitorConfig) (n : Nat) :
    ∀ (i : Nat) (key : Nat), (∀ j, j < n → key ≠ idAt s (i + j)) →
    mapLookup (specPairs s c n i) key = none := by
  induction n with
  | zero => intro i key _; rfl
  | succ n ih =>
    intro i key hkey
    unfold specPairs mapLookup
    rw [if_neg (by
      have := hkey 0 (by omega)
      rw [Nat.add_zero] at this
      exact fun h => this h.symm)]
    exact ih (i + 1) key (fun j hj => by
      have := hkey (j + 1) (by omega)
      rwa [show i + (j + 1) = i + 1 + j by omega] at this)

/-- C3: with both counts matching the monitor lists and the server's
monitor ids pairwise distinct (the spec's 1-based unique ids), the monitor
map built at handshake has exactly `min(S.count, C.count)` entries, maps
`S.Monitors[i].ID` to `C.Monitors[i].ID` for every `i` below the bound,
and contains no entry for any server monitor at or beyond the bound. -/
theorem mapMonitors_spec (s c : MonitorConfig)
    (hslen : s.MonitorCount = s.Monitors.length)
    (hclen : c.MonitorCount = c.Monitors.length)
    (hnodup : (s.Monitors.map MonitorInfo.ID).Nodup) :
    (mapMonitors s c).length = min s.MonitorCount c.MonitorCount
    ∧ (∀ i, i < min s.MonitorCount c.MonitorCount →
        mapLookup (mapMonitors s c) (idAt s i) = some (idAt c i))
    ∧ (∀ j, min s.MonitorCount c.MonitorCount ≤ j → j < s.Monitors.length →
        mapLookup (mapMonitors s c) (idAt s j) = none) := by
  have hinj : ∀ i j, i < s.Monitors.length → j < s.Monitors.length →
      idAt s i = idAt s j → i = j := by
    intro i j hi hj he
    have hi2 : i < (s.Monitors.map MonitorInfo.ID).length := by simpa using hi
    have hj2 : j < (s.Monitors.map MonitorInfo.ID).length := by simpa using hj
    have hgi : idAt s i = (s.Monitors.map MonitorInfo.ID)[i] := by
      unfold idAt
      rw [List.getD_eq_getElem s.Monitors default hi, List.getElem_map]
    have hgj : idAt s j = (s.Monitors.map MonitorInfo.ID)[j] := by
      unfold idAt
      rw [List.getD_eq_getElem s.Monitors default hj, List.getElem_map]
    rw [hgi, hgj] at he
    exact hnodup.getElem_inj_iff.mp he
  have hmin : min s.MonitorCount c.MonitorCount ≤ s.Monitors.length := by omega
  have hdist : ∀ j1 j2, j1 < j2 → j2 < min s.MonitorCount c.MonitorCount →
      idAt s (0 + j1) ≠ idAt s (0 + j2) := by
    intro j1 j2 h12 h2n he
    have := hinj (0 + j1) (0 + j2) (by omega) (by omega) he
    omega
  have heq : mapMonitors s c = specPairs s c (min s.MonitorCount c.MonitorCount) 0 := by
    unfold mapMonitors
    rw [mapMonitorsGo_eq_append s c _ 0 [] (fun j _ => rfl) hdist]
    rfl
  refine ⟨?_, ?_, ?_⟩
  · rw [heq, specPairs_length]
  · intro i hi
    rw [heq]
    have := mapLookup_specPairs_hit s c (min s.MonitorCount c.MonitorCount) 0 i hi hdist
    simpa using this
  · intro j hjmin hjlen
    rw [heq]
    exact mapLookup_specPairs_miss s c _ 0 (idAt s j) (fun j2 hj2 => by
      intro he
      have := hinj j (0 + j2) hjlen (by omega) he
      omega)

/-- Witness for the monitor-map theorem: a three-monitor server paired
with a two-monitor client maps server ids 1,2 to client ids 10,20 and has
no entry for server monitor 3. -/
theorem mapMonitors_spec_witness :
    (mapMonitors ⟨3, [⟨1, 0, 0, 0, 0, true⟩, ⟨2, 0, 0, 0, 0, false⟩, ⟨3, 0, 0, 0, 0, false⟩]⟩
        ⟨2, [⟨10, 0, 0, 0, 0, true⟩, ⟨20, 0, 0, 0, 0, false⟩]⟩).length = min 3 2
    ∧ (∀ i, i < min 3 2 →
        mapLookup (mapMonitors
          ⟨3, [⟨1, 0, 0, 0, 0, true⟩, ⟨2, 0, 0, 0, 0, false⟩, ⟨3, 0, 0, 0, 0, false⟩]⟩
          ⟨2, [⟨10, 0, 0, 0, 0, true⟩, ⟨20, 0, 0, 0, 0, false⟩]⟩)
          (idAt ⟨3, [⟨1, 0, 0, 0, 0, true⟩, ⟨2, 0, 0, 0, 0, false⟩, ⟨3, 0, 0, 0, 0, false⟩]⟩ i)
          = some (idAt ⟨2, [⟨10, 0, 0, 0, 0, true⟩, ⟨20, 0, 0, 0, 0, false⟩]⟩ i))
    ∧ (∀ j, min 3 2 ≤ j → j < 3 →
        mapLookup (mapMonitors
          ⟨3, [⟨1, 0, 0, 0, 0, true⟩, ⟨2, 0, 0, 0, 0, false⟩, ⟨3, 0, 0, 0, 0, false⟩]⟩
          ⟨2, [⟨10, 0, 0, 0, 0, true⟩, ⟨20, 0, 0, 0, 0, false⟩]⟩)
          (idAt ⟨3, [⟨1, 0, 0, 0, 0, true⟩, ⟨2, 0, 0, 0, 0, false⟩, ⟨3, 0, 0, 0, 0, false⟩]⟩ j)
          = none) := by
  have h := mapMonitors_spec
    ⟨3, [⟨1, 0, 0, 0, 0, true⟩, ⟨2, 0, 0, 0, 0, false⟩, ⟨3, 0, 0, 0, 0, false⟩]⟩
    ⟨2, [⟨10, 0, 0, 0, 0, true⟩, ⟨20, 0, 0, 0, 0, false⟩]⟩
    (by decide) (by decide) (by decide)
  exact ⟨h.1, h.2.1, fun j h1 h2 => h.2.2 j h1 (by simpa using h2)⟩

/-! ## Client receive path and frame store (client/client.go) -/

/-- `protocol.BytesToUint32`: returns 0 on a short slice, otherwise the
little-endian `uint32` of the first four bytes. -/
def BytesToUint32 (b : List Nat) : Nat :=
  if b.length < 4 then 0 else fromLeBytes (b.take 4)

/-- The client state touched by the receive path: the monitor map
(server id → local id), the frame buffers (the FrameStore) and the
per-monitor frame counters. -/
structure ClientState where
  monitorMap : List (Nat × Nat)
  frameBuffers : List (Nat × List Nat)
  frameCount : List (Nat × Nat)
deriving DecidableEq, Repr

/-- Go `fc[k]++`: a missing entry reads as zero. -/
def bumpCount (fc : List (Nat × Nat)) (k : Nat) : List (Nat × Nat) :=
  mapInsert fc k ((mapLookup fc k).getD 0 + 1)

/-- `Client.updateFrameBuffer`: looks the server monitor id up in the
monitor map (a miss only bumps `frameCount[0]` and returns), validates
the JPEG SOI marker `FF D8` (failure returns with the state unchanged),
then stores a copy of the frame bytes under the local monitor id and
bumps that monitor's frame counter. -/
def updateFrameBuffer (st : ClientState) (serverMonitorID : Nat)
    (frameData : List Nat) : ClientState :=
  match mapLookup st.monitorMap serverMonitorID with
  | none => { st with frameCount := bumpCount st.frameCount 0 }
  | some localMonitorID =>
    if frameData.length < 2 ∨ frameData.getD 0 0 ≠ 255 ∨ frameData.getD 1 0 ≠ 216 then
      st
    else
      { st with
        frameBuffers := mapInsert st.frameBuffers localMonitorID frameData,
        frameCount := bumpCount st.frameCount localMonitorID }

/-- The `PacketTypeVideoFrame` branch of `Client.handlePacket`: payloads
shorter than 4 bytes are rejected; otherwise the first four bytes are the
server monitor id and the rest is the frame. -/
def handleVideoFrame (st : ClientState) (payload : List Nat) : ClientState :=
  if payload.length < 4 then st
  else updateFrameBuffer st (BytesToUint32 (payload.take 4)) (payload.drop 4)

/-- The receive loop handling a finite sequence of VideoFrame payloads in
order. -/
def processFrames (st : ClientState) (ps : List (List Nat)) : ClientState :=
  ps.foldl handleVideoFrame st

/-- Exactly the condition under which the client stores a VideoFrame
payload to local monitor `l`: long enough, mapped to `l`, and a valid
JPEG SOI marker. -/
def storesTo (mmap : List (Nat × Nat)) (l : Nat) (payload : List Nat) : Prop :=
  4 ≤ payload.length
  ∧ mapLookup mmap (BytesToUint32 (payload.take 4)) = some l
  ∧ 2 ≤ (payload.drop 4).length
  ∧ (payload.drop 4).getD 0 0 = 255
  ∧ (payload.drop 4).getD 1 0 = 216

instance (mmap : List (Nat × Nat)) (l : Nat) (payload : List Nat) :
    Decidable (storesTo mmap l payload) := by
  unfold storesTo; infer_instance

/-- Specification form of most-recent-wins: the frame stored for local
monitor `l` after a payload sequence, starting from the stored value
`acc`. -/
def lastStoredAux (mmap : List (Nat × Nat)) (l : Nat) (acc : Option (List Nat)) :
    List (List Nat) → Option (List Nat)
  | [] => acc
  | p :: ps =>
    lastStoredAux mmap l (if storesTo mmap l p then some (p.drop 4) else acc) ps

theorem mapLookup_map_overwrite {β : Type} (m : List (Nat × β)) (k : Nat) (v : β)
    (k2 : Nat) :
    mapLookup (m.map (fun p => if p.1 = k then (k, v) else p)) k2
      = if k2 = k then Option.map (fun _ => v) (mapLookup m k)
        else mapLookup m k2 := by
  induction m with
  | nil => simp [mapLookup]
  | cons p rest ih =>
    obtain ⟨k3, w⟩ := p
    rw [List.map_cons]
    by_cases h3 : k3 = k
    · have hhead : (if (k3, w).1 = k then (k, v) else (k3, w)) = (k, v) := by
        simp [h3]
      rw [hhead]
      show (if k = k2 then some v
          else mapLookup (rest.map (fun p => if p.1 = k then (k, v) else p)) k2)
        = if k2 = k then Option.map (fun _ => v) (mapLookup ((k3, w) :: rest) k)
          else mapLookup ((k3, w) :: rest) k2
      by_cases h2 : k2 = k
      · rw [if_pos h2.symm, if_pos h2]
        show some v = Option.map (fun _ => v) (if k3 = k then some w else mapLookup rest k)
        rw [if_pos h3]
        rfl
      · rw [if_neg (fun h => h2 h.symm), if_neg h2, ih, if_neg h2]
        show mapLookup rest k2 = if k3 = k2 then some w else mapLookup rest k2
        rw [if_neg (fun h : k3 = k2 => h2 (h.symm.trans h3))]
    · have hhead : (if (k3, w).1 = k then (k, v) else (k3, w)) = (k3, w) := by
        simp [h3]
      rw [hhead]
      show (if k3 = k2 then some w
          else mapLookup (rest.map (fun p => if p.1 = k then (k, v) else p)) k2)
        = if k2 = k then Option.map (fun _ => v) (mapLookup ((k3, w) :: rest) k)
          else mapLookup ((k3, w) :: rest) k2
      by_cases h2 : k3 = k2
      · rw [if_pos h2, if_neg (fun h : k2 = k => h3 (h2.trans h))]
        show some w = if k3 = k2 then some w else mapLookup rest k2
        rw [if_pos h2]
      · rw [if_neg h2, ih]
        by_cases hk2 : k2 = k
        · rw [if_pos hk2, if_pos hk2]
          show Option.map (fun _ => v) (mapLookup rest k)
            = Option.map (fun _ => v) (if k3 = k then some w else mapLookup rest k)
          rw [if_neg h3]
        · rw [if_neg hk2, if_neg hk2]
          show mapLookup rest k2 = if k3 = k2 then some w else mapLookup rest k2
          rw [if_neg h2]

theorem mapLookup_mapInsert {β : Type} (m : List (Nat × β)) (k : Nat) (v : β)
    (k2 : Nat) :
    mapLookup (mapInsert m k v) k2 = if k2 = k then some v else mapLookup m k2 := by
  unfold mapInsert
  by_cases hp : (mapLookup m k).isSome
  · rw [if_pos hp, mapLookup_map_overwrite]
    by_cases h2 : k2 = k
    · rw [if_pos h2, if_pos h2]
      obtain ⟨v0, hv0⟩ := Option.isSome_iff_exists.mp hp
      rw [hv0]
      rfl
    · rw [if_neg h2, if_neg h2]
  · rw [if_neg hp, mapLookup_append]
    have hnone : mapLookup m k = none := Option.not_isSome_iff_eq_none.mp hp
    by_cases h2 : k2 = k
    · subst h2
      rw [hnone]
      simp [mapLookup]
    · rw [if_neg h2]
      cases hm : mapLookup m k2 with
      | some w => rfl
      | none => simp [mapLookup, if_neg (fun h : k = k2 => h2 h.symm)]

theorem mapLookup_none_not_mem {β : Type} (m : List (Nat × β)) (k : Nat)
    (h : mapLookup m k = none) : k ∉ m.map Prod.fst := by
  induction m with
  | nil => simp
  | cons p rest ih =>
    obtain ⟨k2, v⟩ := p
    unfold mapLookup at h
    by_cases h2 : k2 = k
    · rw [if_pos h2] at h; exact absurd h (by simp)
    · rw [if_neg h2] at h
      simp only [List.map_cons, List.mem_cons]
      rintro (rfl | hmem)
      · exact h2 rfl
      · exact ih h hmem

theorem mapInsert_keys_nodup {β : Type} (m : List (Nat × β)) (k : Nat) (v : β)
    (h : (m.map Prod.fst).Nodup) : ((mapInsert m k v).map Prod.fst).Nodup := by
  unfold mapInsert
  by_cases hp : (mapLookup m k).isSome
  · rw [if_pos hp]
    have hkeys : (m.map (fun p => if p.1 = k then (k, v) else p)).map Prod.fst
        = m.map Prod.fst := by
      rw [List.map_map]
      apply List.map_congr_left
      intro p _
      by_cases hpk : p.1 = k
      · simp [hpk]
      · simp [hpk]
    rw [hkeys]
    exact h
  · rw [if_neg hp]
    have hnm : k ∉ m.map Prod.fst :=
      mapLookup_none_not_mem m k (Option.not_isSome_iff_eq_none.mp hp)
    rw [List.map_append]
    simp [List.nodup_append, h, hnm]

theorem updateFrameBuffer_miss (st : ClientState) (sid : Nat) (fd : List Nat)
    (h : mapLookup st.monitorMap sid = none) :
    updateFrameBuffer st sid fd = { st with frameCount := bumpCount st.frameCount 0 } := by
  unfold updateFrameBuffer
  rw [h]

theorem updateFrameBuffer_hit_bad (st : ClientState) (sid : Nat) (fd : List Nat)
    (l2 : Nat) (h : mapLookup st.monitorMap sid = some l2)
    (hbad : fd.length < 2 ∨ fd.getD 0 0 ≠ 255 ∨ fd.getD 1 0 ≠ 216) :
    updateFrameBuffer st sid fd = st := by
  unfold updateFrameBuffer
  rw [h]
  show (if fd.length < 2 ∨ fd.getD 0 0 ≠ 255 ∨ fd.getD 1 0 ≠ 216 then st
      else { st with frameBuffers := mapInsert st.frameBuffers l2 fd,
                     frameCount := bumpCount st.frameCount l2 }) = st
  rw [if_pos hbad]

theorem updateFrameBuffer_hit_good (st : ClientState) (sid : Nat) (fd : List Nat)
    (l2 : Nat) (h : mapLookup st.monitorMap sid = some l2)
    (hgood : ¬ (fd.length < 2 ∨ fd.getD 0 0 ≠ 255 ∨ fd.getD 1 0 ≠ 216)) :
    updateFrameBuffer st sid fd
      = { st with frameBuffers := mapInsert st.frameBuffers l2 fd,
                  frameCount := bumpCount st.frameCount l2 } := by
  unfold updateFrameBuffer
  rw [h]
  show (if fd.length < 2 ∨ fd.getD 0 0 ≠ 255 ∨ fd.getD 1 0 ≠ 216 then st
      else { st with frameBuffers := mapInsert st.frameBuffers l2 fd,
                     frameCount := bumpCount st.frameCount l2 })
    = { st with frameBuffers := mapInsert st.frameBuffers l2 fd,
                frameCount := bumpCount st.frameCount l2 }
  rw [if_neg hgood]

theorem handleVideoFrame_monitorMap (st : ClientState) (p : List Nat) :
    (handleVideoFrame st p).monitorMap = st.monitorMap := by
  unfold handleVideoFrame updateFrameBuffer
  split
  · rfl
  · split
    · rfl
    · split
      · rfl
      · rfl

theorem handleVideoFrame_lookup (st : ClientState) (p : List Nat) (l : Nat) :
    mapLookup (handleVideoFrame st p).frameBuffers l
      = if storesTo st.monitorMap l p then some (p.drop 4)
        else mapLookup st.frameBuffers l := by
  unfold handleVideoFrame
  by_cases hlen : p.length < 4
  · rw [if_pos hlen, if_neg (by unfold storesTo; omega)]
  · rw [if_neg hlen]
    cases hmap : mapLookup st.monitorMap (BytesToUint32 (p.take 4)) with
    | none =>
      rw [updateFrameBuffer_miss st _ _ hmap]
      rw [if_neg (by unfold storesTo; rw [hmap]; simp)]
    | some l2 =>
      by_cases hbad : (p.drop 4).length < 2 ∨ (p.drop 4).getD 0 0 ≠ 255
          ∨ (p.drop 4).getD 1 0 ≠ 216
      · rw [updateFrameBuffer_hit_bad st _ _ l2 hmap hbad]
        rw [if_neg (by
          unfold storesTo
          rintro ⟨h1, h2, h3, h4, h5⟩
          rcases hbad with hb | hb | hb
          · omega
          · exact hb h4
          · exact hb h5)]
      · rw [updateFrameBuffer_hit_good st _ _ l2 hmap hbad]
        show mapLookup (mapInsert st.frameBuffers l2 (p.drop 4)) l = _
        rw [mapLookup_mapInsert]
        by_cases hl : l = l2
        · subst hl
          rw [if_pos rfl, if_pos (by
            unfold storesTo
            rw [hmap]
            push_neg at hbad
            exact ⟨by omega, rfl, by omega, hbad.2.1, hbad.2.2⟩)]
        · rw [if_neg hl, if_neg (by
            unfold storesTo
            rw [hmap]
            intro hst
            exact hl (Option.some_injective _ hst.2.1).symm)]

theorem handleVideoFrame_buffers_nodup (st : ClientState) (p : List Nat)
    (h : (st.frameBuffers.map Prod.fst).Nodup) :
    ((handleVideoFrame st p).frameBuffers.map Prod.fst).Nodup := by
  unfold handleVideoFrame updateFrameBuffer
  split
  · exact h
  · split
    · exact h
    · split
      · exact h
      · exact mapInsert_keys_nodup _ _ _ h

theorem processFrames_lookup (ps : List (List Nat)) :
    ∀ (st : ClientState) (l : Nat),
    mapLookup (processFrames st ps).frameBuffers l
      = lastStoredAux st.monitorMap l (mapLookup st.frameBuffers l) ps := by
  induction ps with
  | nil => intro st l; rfl
  | cons p ps ih =>
    intro st l
    show mapLookup (processFrames (handleVideoFrame st p) ps).frameBuffers l = _
    rw [ih (handleVideoFrame st p) l]
    rw [handleVideoFrame_monitorMap, handleVideoFrame_lookup]
    rfl

theorem processFrames_buffers_nodup (ps : List (List Nat)) :
    ∀ (st : ClientState), (st.frameBuffers.map Prod.fst).Nodup →
    ((processFrames st ps).frameBuffers.map Prod.fst).Nodup := by
  induction ps with
  | nil => intro st h; exact h
  | cons p ps ih =>
    intro st h
    exact ih (handleVideoFrame st p) (handleVideoFrame_buffers_nodup st p h)

/-- C4: a VideoFrame payload of at least 4 bytes whose first four bytes
decode (little-endian) to a mapped server monitor id and whose remaining
bytes begin with the JPEG marker `FF D8` is stored — exactly the payload
minus its first four bytes — in the FrameStore under the mapped local
monitor id; a payload shorter than 4 bytes is rejected and leaves the
whole client state, in particular the FrameStore, unchanged. -/
theorem video_frame_stored (st : ClientState) (payload : List Nat) :
    (payload.length < 4 → handleVideoFrame st payload = st)
    ∧ (∀ l, 4 ≤ payload.length →
        mapLookup st.monitorMap (BytesToUint32 (payload.take 4)) = some l →
        2 ≤ (payload.drop 4).length → (payload.drop 4).getD 0 0 = 255 →
        (payload.drop 4).getD 1 0 = 216 →
        mapLookup (handleVideoFrame st payload).frameBuffers l
          = some (payload.drop 4)) := by
  constructor
  · intro hshort
    unfold handleVideoFrame
    rw [if_pos hshort]
  · intro l hlen hmap hfl h0 h1
    rw [handleVideoFrame_lookup st payload l,
      if_pos (by exact ⟨hlen, hmap, hfl, h0, h1⟩)]

/-- Witness for the VideoFrame storing theorem: a valid frame for mapped
server monitor 7 is stored under local id 1, and a 2-byte payload leaves
the state unchanged. -/
theorem video_frame_stored_witness :
    handleVideoFrame ⟨[(7, 1)], [(1, [0])], []⟩ [1, 2] = ⟨[(7, 1)], [(1, [0])], []⟩
    ∧ mapLookup (handleVideoFrame ⟨[(7, 1)], [(1, [0])], []⟩
        [7, 0, 0, 0, 255, 216, 9]).frameBuffers 1
        = some (List.drop 4 [7, 0, 0, 0, 255, 216, 9]) :=
  ⟨(video_frame_stored ⟨[(7, 1)], [(1, [0])], []⟩ [1, 2]).1 (by decide),
   (video_frame_stored ⟨[(7, 1)], [(1, [0])], []⟩ [7, 0, 0, 0, 255, 216, 9]).2 1
     (by decide) (by decide) (by decide) (by decide) (by decide)⟩

/-- C5: after the client processes any finite sequence of VideoFrame
payloads in order, the FrameStore still has at most one entry per local
monitor id (its keys stay pairwise distinct), and the entry for any
monitor `l` is exactly the most-recent-wins value: the frame bytes of the
last payload stored to `l`, or the initial entry when no payload in the
sequence stored to `l` (`lastStoredAux` is that specification). -/
theorem frame_store_most_recent_wins (st : ClientState) (ps : List (List Nat)) (l : Nat)
    (hnodup : (st.frameBuffers.map Prod.fst).Nodup) :
    ((processFrames st ps).frameBuffers.map Prod.fst).Nodup
    ∧ mapLookup (processFrames st ps).frameBuffers l
        = lastStoredAux st.monitorMap l (mapLookup st.frameBuffers l) ps :=
  ⟨processFrames_buffers_nodup ps st hnodup, processFrames_lookup ps st l⟩

/-- Witness for most-recent-wins: delivering `f1, f2, f3` for server
monitor 7 (mapped to local monitor 1) and reading afterwards observes
`f3`. -/
theorem frame_store_most_recent_wins_witness :
    (((processFrames ⟨[(7, 1)], [], []⟩
        [[7, 0, 0, 0, 255, 216, 1], [7, 0, 0, 0, 255, 216, 2],
         [7, 0, 0, 0, 255, 216, 3]]).frameBuffers.map Prod.fst).Nodup
      ∧ mapLookup (processFrames ⟨[(7, 1)], [], []⟩
          [[7, 0, 0, 0, 255, 216, 1], [7, 0, 0, 0, 255, 216, 2],
           [7, 0, 0, 0, 255, 216, 3]]).frameBuffers 1
          = lastStoredAux [(7, 1)] 1 (mapLookup [] 1)
              [[7, 0, 0, 0, 255, 216, 1], [7, 0, 0, 0, 255, 216, 2],
               [7, 0, 0, 0, 255, 216, 3]])
    ∧ mapLookup (processFrames ⟨[(7, 1)], [], []⟩
        [[7, 0, 0, 0, 255, 216, 1], [7, 0, 0, 0, 255, 216, 2],
         [7, 0, 0, 0, 255, 216, 3]]).frameBuffers 1 = some [255, 216, 3] :=
  ⟨frame_store_most_recent_wins ⟨[(7, 1)], [], []⟩
      [[7, 0, 0, 0, 255, 216, 1], [7, 0, 0, 0, 255, 216, 2],
       [7, 0, 0, 0, 255, 216, 3]] 1 (by decide),
   by decide⟩

/-- C6: a VideoFrame whose frame bytes (the payload after the 4-byte
monitor id) do not begin with `FF D8` is dropped: the handler returns
with the client state — in particular the FrameStore, including any
previously stored frame for that monitor — unchanged, and no error is
surfaced to the receive loop (the handler is total and the loop
continues). -/
theorem invalid_marker_frame_dropped (st : ClientState) (payload : List Nat) (l : Nat)
    (hlen : 4 ≤ payload.length)
    (hmap : mapLookup st.monitorMap (BytesToUint32 (payload.take 4)) = some l)
    (hbad : ¬ (2 ≤ (payload.drop 4).length ∧ (payload.drop 4).getD 0 0 = 255
        ∧ (payload.drop 4).getD 1 0 = 216)) :
    handleVideoFrame st payload = st := by
  unfold handleVideoFrame
  rw [if_neg (by omega)]
  apply updateFrameBuffer_hit_bad st _ _ l hmap
  by_contra hgood
  push_neg at hgood
  exact hbad ⟨by omega, hgood.2.1, hgood.2.2⟩

/-- Witness for frame dropping: a mapped frame without the SOI marker
leaves the state (with its previously stored frame) untouched. -/
theorem invalid_marker_frame_dropped_witness :
    handleVideoFrame ⟨[(7, 1)], [(1, [255, 216, 5])], []⟩ [7, 0, 0, 0, 1, 2, 3]
      = ⟨[(7, 1)], [(1, [255, 216, 5])], []⟩ :=
  invalid_marker_frame_dropped ⟨[(7, 1)], [(1, [255, 216, 5])], []⟩
    [7, 0, 0, 0, 1, 2, 3] 1 (by decide) (by decide) (by decide)

/-! ## Server session packet handling and handshake (server/server.go) -/

/-- The per-client session state `Server.handlePacket` can mutate: the
monitor map and the quality level (`int`, default 80) plus the active
flag. -/
structure ServerSession where
  monitorMap : List (Nat × Nat)
  qualityLevel : Nat
  active : Bool
deriving DecidableEq, Repr

/-- `Server.handlePacket`: a `MonitorConfig` packet (0x07) rebuilds the
session's monitor map when its payload decodes; a `QualityControl` packet
(0x0A) with a non-empty payload stores `int(packet.Payload[0])` as the
session's quality level, with no clamping; `MouseMove`, `MouseButton`,
`Keyboard`, `Ping` and unknown types leave the session state unchanged
(`Ping` only writes a `Pong` to the connection). A decode panic would
kill the per-client goroutine; it is unreachable in the theorems below. -/
def serverHandlePacket (serverMonitors : MonitorConfig) (sess : ServerSession)
    (p : Packet) : ServerSession :=
  if p.Typ = 7 then
    match DecodeMonitorConfig p.Payload with
    | .ok clientMonitors =>
      { sess with monitorMap := mapMonitors serverMonitors clientMonitors }
    | .errored => sess
    | .panicked => sess
  else if p.Typ = 10 then
    if 1 ≤ p.Payload.length then { sess with qualityLevel := p.Payload.getD 0 0 }
    else sess
  else sess

/-- C7: the session's stored quality level after a `QualityControl`
packet is the raw first payload byte — the code performs no clamping, so
for the byte 200 the stored level is 200, not the claimed
`clamp(200, 0, 100) = 100`. (The client-side sender
`SendQualityControl` clamps before sending, and the field is documented
`// 0-100`, so the server-side store violates its own documentation.) -/
theorem quality_control_no_clamp :
    (serverHandlePacket ⟨1, [⟨1, 1920, 1080, 0, 0, true⟩]⟩
        ⟨[], 80, true⟩ ⟨10, 0, 1, [200]⟩).qualityLevel = 200
    ∧ ¬ (serverHandlePacket ⟨1, [⟨1, 1920, 1080, 0, 0, true⟩]⟩
        ⟨[], 80, true⟩ ⟨10, 0, 1, [200]⟩).qualityLevel ≤ 100 := by
  decide

/-- The first packet read from a freshly accepted client after the server
sends its handshake (`handleClient`): any type other than
`MonitorConfig` (0x07), or a payload that fails to decode, closes the
connection (`none`); otherwise the server builds and keeps the positional
monitor map. -/
def handleClientFirstPacket (serverMonitors : MonitorConfig) (p : Packet) :
    Option (List (Nat × Nat)) :=
  if p.Typ ≠ 7 then none
  else
    match DecodeMonitorConfig p.Payload with
    | .ok clientMonitors => some (mapMonitors serverMonitors clientMonitors)
    | .errored => none
    | .panicked => none

/-- C8: if the first packet from a newly accepted client has any type
other than `MonitorConfig` (0x07), the server closes that connection and
builds no monitor map from the packet (`none`). -/
theorem wrong_first_packet_closes (s : MonitorConfig) (p : Packet)
    (h : p.Typ ≠ 7) : handleClientFirstPacket s p = none := by
  unfold handleClientFirstPacket
  rw [if_pos h]

/-- Witness: a `Ping` (0x08) first packet is rejected. -/
theorem wrong_first_packet_closes_witness :
    handleClientFirstPacket ⟨1, [⟨1, 1920, 1080, 0, 0, true⟩]⟩ ⟨8, 0, 0, []⟩ = none :=
  wrong_first_packet_closes ⟨1, [⟨1, 1920, 1080, 0, 0, true⟩]⟩ ⟨8, 0, 0, []⟩ (by decide)

/-! ## Capture path selection (server/macos_capture.go) -/

/-- Reinterpret a `uint32` value as a signed 32-bit integer
(`2^31 = 2147483648`, `2^32 = 4294967296`). -/
def toInt32 (x : Nat) : Int :=
  if x < 2147483648 then (x : Int) else (x : Int) - 4294967296

/-- The coordinate sanity check of `captureMonitor`: Go compares the
`uint32` fields `monitor.PositionX > 10000 || monitor.PositionY > 10000`
unsigned. -/
def isValidCoords (m : MonitorInfo) : Bool :=
  !(decide (10000 < m.PositionX) || decide (10000 < m.PositionY))

/-- Which capture call one loop iteration of `captureMonitor` issues
first. -/
inductive CapturePath where
  | rect (x0 y0 x1 y1 : Int)
  | displayIdx (idx : Int)
  | skip
deriving DecidableEq, Repr

/-- The capture-path selection of `captureMonitor`: rectangular capture
with the monitor's bounds when the coordinates pass the sanity check,
otherwise `screenshot.CaptureDisplay` on the zero-based index `ID - 1`
when that index is in range, otherwise no capture this iteration. Go's
`int(monitor.PositionX)` widens the `uint32` value unchanged. -/
def selectCapturePath (m : MonitorInfo) (numDisplays : Nat) : CapturePath :=
  if isValidCoords m then
    .rect (m.PositionX : Int) (m.PositionY : Int)
      ((m.PositionX : Int) + (m.Width : Int)) ((m.PositionY : Int) + (m.Height : Int))
  else if 0 ≤ (m.ID : Int) - 1 ∧ (m.ID : Int) - 1 < (numDisplays : Int) then
    .displayIdx ((m.ID : Int) - 1)
  else .skip

/-- The claim's safety envelope: either coordinate, reinterpreted as
signed, has absolute value greater than 10000. -/
def coordUnsafeClaim (m : MonitorInfo) : Bool :=
  decide (10000 < (toInt32 m.PositionX).natAbs)
    || decide (10000 < (toInt32 m.PositionY).natAbs)

/-- C9 (counterexample): the monitor at position `(4294964736, 0)` —
signed `(-2560, 0)` — is sent to the index-based capture path by the
code, yet the claim's criterion `|signed coord| > 10000` calls it safe:
the claimed "exactly when" equivalence is false (the code's test is the
unsigned comparison `coord > 10000`, which also fires on all negative
positions such as `-2560`). -/
theorem capture_path_selection_counterexample :
    isValidCoords ⟨1, 2560, 1440, 4294964736, 0, true⟩ = false
    ∧ selectCapturePath ⟨1, 2560, 1440, 4294964736, 0, true⟩ 1
        = CapturePath.displayIdx 0
    ∧ coordUnsafeClaim ⟨1, 2560, 1440, 4294964736, 0, true⟩ = false := by
  decide

/-- C9 (amended): the capture worker avoids rectangular capture — taking
the index-based path addressing display `ID - 1`, or skipping when that
index is out of range — exactly when a position coordinate exceeds 10000
as an unsigned `uint32`; in signed terms, exactly when either coordinate
reinterpreted as signed is negative or greater than 10000. In particular
`(4294964736, 0)` (signed `(-2560, 0)`) is coordinate-unsafe and never
captured by rectangle. -/
theorem isValidCoords_iff (m : MonitorInfo) :
    isValidCoords m = true ↔ (m.PositionX ≤ 10000 ∧ m.PositionY ≤ 10000) := by
  unfold isValidCoords
  simp [not_or]

theorem capture_path_selection (m : MonitorInfo) (numDisplays : Nat)
    (hx : m.PositionX < 2 ^ 32) (hy : m.PositionY < 2 ^ 32) :
    (∀ x0 y0 x1 y1, selectCapturePath m numDisplays ≠ CapturePath.rect x0 y0 x1 y1)
      ↔ (toInt32 m.PositionX < 0 ∨ 10000 < toInt32 m.PositionX
         ∨ toInt32 m.PositionY < 0 ∨ 10000 < toInt32 m.PositionY) := by
  have h32 : (2:Nat) ^ 32 = 4294967296 := by norm_num
  rw [h32] at hx hy
  unfold selectCapturePath
  by_cases hv : isValidCoords m
  · rw [if_pos hv]
    have hv2 := (isValidCoords_iff m).mp hv
    constructor
    · intro hne
      exact absurd rfl (hne _ _ _ _)
    · intro hr
      exfalso
      unfold toInt32 at hr
      obtain ⟨hvx, hvy⟩ := hv2
      split_ifs at hr <;> rcases hr with h | h | h | h <;> omega
  · rw [if_neg hv]
    have hv2 : 10000 < m.PositionX ∨ 10000 < m.PositionY := by
      by_contra hc
      push_neg at hc
      exact hv ((isValidCoords_iff m).mpr ⟨hc.1, hc.2⟩)
    constructor
    · intro _
      rcases hv2 with h | h
      · by_cases hx31 : m.PositionX < 2147483648
        · refine Or.inr (Or.inl ?_)
          unfold toInt32
          rw [if_pos hx31]
          omega
        · refine Or.inl ?_
          unfold toInt32
          rw [if_neg hx31]
          omega
      · by_cases hy31 : m.PositionY < 2147483648
        · refine Or.inr (Or.inr (Or.inr ?_))
          unfold toInt32
          rw [if_pos hy31]
          omega
        · refine Or.inr (Or.inr (Or.inl ?_))
          unfold toInt32
          rw [if_neg hy31]
          omega
    · intro _
      intro x0 y0 x1 y1
      split
      · intro h
        cases h
      · intro h
        cases h

/-- Witness for the amended capture-path theorem at the wrap-around
monitor `(4294964736, 0)`: its X coordinate reinterpreted as signed is
negative (`-2560`), so it is not captured by the rectangle of its own
reported bounds. -/
theorem capture_path_selection_witness :
    selectCapturePath ⟨1, 2560, 1440, 4294964736, 0, true⟩ 1
      ≠ CapturePath.rect 4294964736 0 4294967296 1440 :=
  (capture_path_selection ⟨1, 2560, 1440, 4294964736, 0, true⟩ 1
    (by decide) (by decide)).mpr (by decide) 4294964736 0 4294967296 1440

end UltraRDP
